import Mathlib

/-!
Verification of the iw3 stereo side-by-side conversion pipeline.

This file gives a shallow embedding, over exact rational arithmetic, of the
rendering core found in `iw3/cli.py` and `nunif/utils/pil_io.py`:

* the closed-form depth-guided warp `apply_divergence_grid_sample`, including
  an exact model of PyTorch's `grid_sample` with bicubic interpolation and
  border padding (`aten` CPU kernel semantics, cubic convolution with
  `A = -3/4`, `align_corners=True`);
* the neural-warp wrapper `apply_divergence_nn` with its mirroring logic and
  its configuration / preprocess / input callbacks, the tiled renderer itself
  being treated as an abstract parameter;
* the stereo pair assembly in `process_image` (warp twice, optional constant
  padding, concatenation along the width axis) and the size computation
  `get_output_size`;
* the CLI divergence validation in `main`;
* the PIL image loading mode normalization `_load_image` / `load_image` and
  the batch loop of `process_images`.

Images are channel-first buffers indexed by `Fin` and valued in `ℚ`.
Floating-point tensor arithmetic is idealized as exact rational arithmetic.
-/

/-- A channel-first image buffer: `ch` channels, `h` rows, `w` columns,
rational pixel values. -/
abbrev Image (ch h w : Nat) := Fin ch → Fin h → Fin w → ℚ

/-- A single-channel depth buffer with the same spatial extent convention. -/
abbrev DepthMap (h w : Nat) := Fin h → Fin w → ℚ

/-- The constant `A` of the cubic convolution kernel used by PyTorch's
bicubic interpolation (`cubic_convolution1/2` in `aten`). -/
def bicubicA : ℚ := -3/4

/-- Cubic convolution weight for taps at distance `|x| ≤ 1`
(`cubic_convolution1` in `aten/src/ATen/native/UpSample.h`). -/
def cubic_convolution1 (x : ℚ) : ℚ :=
  ((bicubicA + 2) * x - (bicubicA + 3)) * x * x + 1

/-- Cubic convolution weight for taps at distance `1 < |x| < 2`
(`cubic_convolution2` in `aten/src/ATen/native/UpSample.h`). -/
def cubic_convolution2 (x : ℚ) : ℚ :=
  ((bicubicA * x - 5 * bicubicA) * x + 8 * bicubicA) * x - 4 * bicubicA

/-- One-dimensional cubic interpolation of four consecutive taps `x0..x3`
at fractional position `t ∈ [0,1)` past `x1` (`cubic_interp1d` in `aten`). -/
def cubic_interp1d (x0 x1 x2 x3 t : ℚ) : ℚ :=
  x0 * cubic_convolution2 (t + 1) + x1 * cubic_convolution1 t +
    x2 * cubic_convolution1 (1 - t) + x3 * cubic_convolution2 ((1 - t) + 1)

/-- Border-clamp an integer tap coordinate into `[0, n-1]`
(`clip_coordinates` in `aten`, specialized to integral coordinates). -/
def clip_coordinates (n : Nat) (v : Int) : Nat :=
  min v.toNat (n - 1)

/-- Bound used to index safely with a border-clamped coordinate. -/
def clip_coordinates_lt {n : Nat} (hn : 0 < n) (v : Int) :
    clip_coordinates n v < n := by
  unfold clip_coordinates
  have := Nat.min_le_right v.toNat (n - 1)
  omega

/-- Fetch a pixel with border-clamped (replicate) out-of-range handling
(`get_value_bounded` in `aten`, `padding_mode="border"`). -/
def get_value_bounded {ch h w : Nat} (c : Image ch h w) (k : Fin ch)
    (y x : Int) : ℚ :=
  if hb : 0 < h ∧ 0 < w then
    c k ⟨clip_coordinates h y, clip_coordinates_lt hb.1 y⟩
      ⟨clip_coordinates w x, clip_coordinates_lt hb.2 x⟩
  else 0

/-- Bicubic sampling of channel `k` at unnormalized (index-space) coordinates
`(ix, iy)`: a 4×4 tap neighbourhood around `(⌊ix⌋, ⌊iy⌋)`, interpolated first
along x then along y, with border-clamped taps. -/
def bicubic_sample {ch h w : Nat} (c : Image ch h w) (k : Fin ch)
    (ix iy : ℚ) : ℚ :=
  let ix_nw : Int := ⌊ix⌋
  let iy_nw : Int := ⌊iy⌋
  let tx : ℚ := ix - (ix_nw : ℚ)
  let ty : ℚ := iy - (iy_nw : ℚ)
  let row : Int → ℚ := fun r =>
    cubic_interp1d (get_value_bounded c k r (ix_nw - 1))
      (get_value_bounded c k r ix_nw)
      (get_value_bounded c k r (ix_nw + 1))
      (get_value_bounded c k r (ix_nw + 2)) tx
  cubic_interp1d (row (iy_nw - 1)) (row iy_nw) (row (iy_nw + 1))
    (row (iy_nw + 2)) ty

/-- `torch.linspace (-1) 1 n` evaluated at position `k`; for a single step
torch returns the start value `-1`. -/
def linspace (n : Nat) (k : Nat) : ℚ :=
  if n ≤ 1 then -1 else -1 + 2 * (k : ℚ) / ((n : ℚ) - 1)

/-- Map a normalized grid coordinate in `[-1, 1]` to index space with
`align_corners=True` (`grid_sampler_unnormalize` in `aten`). -/
def unnormalize (n : Nat) (x : ℚ) : ℚ :=
  (x + 1) / 2 * ((n : ℚ) - 1)

/-- `F.grid_sample(c, grid, mode="bicubic", padding_mode="border",
align_corners=True)` for a single image: each output pixel samples the source
at the grid's normalized `(x, y)` coordinate. -/
def grid_sample_bicubic_border {ch h w gh gw : Nat} (c : Image ch h w)
    (grid : Fin gh → Fin gw → ℚ × ℚ) : Image ch gh gw :=
  fun k i j =>
    bicubic_sample c k (unnormalize w (grid i j).1) (unnormalize h (grid i j).2)

/-- The closed-form warp `apply_divergence_grid_sample` of `iw3/cli.py`:
builds the per-pixel horizontal index shift `(1 - depth²) * (shift *
divergence * 0.01)`, the `meshgrid` of normalized coordinates, shifts the x
mesh, samples bicubically with border padding, and clamps to `[0, 1]`. -/
def apply_divergence_grid_sample {ch h w : Nat} (c : Image ch h w)
    (depth : DepthMap h w) (divergence shift : ℚ) : Image ch h w :=
  let index_shift : Fin h → Fin w → ℚ :=
    fun i j => (1 - depth i j ^ 2) * (shift * divergence * (1/100))
  let mesh_y : Fin h → Fin w → ℚ := fun i _ => linspace h i
  let mesh_x : Fin h → Fin w → ℚ := fun _ j => linspace w j
  let grid : Fin h → Fin w → ℚ × ℚ :=
    fun i j => (mesh_x i j - index_shift i j, mesh_y i j)
  fun k i j => min 1 (max 0 (grid_sample_bicubic_border c grid k i j))

/-- The closed-form warp exactly as the specification phrases it: at each
output pixel with normalized coordinate `(x, y)`, a horizontal index shift
`(1 − depth(x,y)²) × (shift_direction × divergence × 0.01)`, a bicubic
border-clamped sample of the source at `(x − shift, y)`, and a clamp of the
result to `[0, 1]`. -/
def closed_form_warp_spec {ch h w : Nat} (c : Image ch h w)
    (depth : DepthMap h w) (divergence shift : ℚ) : Image ch h w :=
  fun k i j =>
    let x : ℚ := linspace w j
    let y : ℚ := linspace h i
    let s : ℚ := (1 - depth i j ^ 2) * (shift * divergence * (1/100))
    min 1 (max 0 (bicubic_sample c k (unnormalize w (x - s)) (unnormalize h y)))

/-- Global minimum of a depth buffer (`depth.min()` on a nonempty tensor);
on an empty extent the value is an arbitrary default. -/
def depth_min {h w : Nat} (d : DepthMap h w) : ℚ :=
  if hne : 0 < h ∧ 0 < w then
    haveI : Nonempty (Fin h × Fin w) := ⟨(⟨0, hne.1⟩, ⟨0, hne.2⟩)⟩
    Finset.univ.inf' Finset.univ_nonempty (fun p : Fin h × Fin w => d p.1 p.2)
  else 0

/-- Global maximum of a depth buffer (`depth.max()` on a nonempty tensor). -/
def depth_max {h w : Nat} (d : DepthMap h w) : ℚ :=
  if hne : 0 < h ∧ 0 < w then
    haveI : Nonempty (Fin h × Fin w) := ⟨(⟨0, hne.1⟩, ⟨0, hne.2⟩)⟩
    Finset.univ.sup' Finset.univ_nonempty (fun p : Fin h × Fin w => d p.1 p.2)
  else 0

/-- `torch.flip(c, (2,))`: mirror an image along the width axis. -/
def flipW {ch h w : Nat} (c : Image ch h w) : Image ch h w :=
  fun k i j => c k i j.rev

/-- `torch.flip(depth, (-1,))` restricted to the spatial plane: mirror a
depth buffer along the width axis. -/
def flipD {h w : Nat} (d : DepthMap h w) : DepthMap h w :=
  fun i j => d i j.rev

/-- Modelled from the spec: `normalize_depth` (imported from `iw3.utils`,
whose source is not included) min-max normalizes a depth buffer to `[0, 1]`
before the closed-form warp. -/
def normalize_depth {h w : Nat} (d : DepthMap h w) : DepthMap h w :=
  fun i j => (d i j - depth_min d) / (depth_max d - depth_min d)

/-- `torch.cat([left, right], dim=2)`: concatenate two equally tall images
along the width axis, left first. -/
def concatW {ch h w1 w2 : Nat} (L : Image ch h w1) (R : Image ch h w2) :
    Image ch h (w1 + w2) :=
  fun k i j =>
    if hlt : (j : Nat) < w1 then L k i ⟨j, hlt⟩
    else R k i ⟨(j : Nat) - w1, by omega⟩

/-- The stereo pair assembly of `process_image` for `method="grid_sample"`
and `pad=None`: normalize the raw depth, warp once per eye with
`shift = -1` (left) and `shift = 1` (right), and concatenate left then right
along the width axis. -/
def process_image_grid_sample {ch h w : Nat} (im : Image ch h w)
    (raw_depth : DepthMap h w) (divergence : ℚ) : Image ch h (w + w) :=
  let depth := normalize_depth raw_depth
  let left_eye := apply_divergence_grid_sample im depth divergence (-1)
  let right_eye := apply_divergence_grid_sample im depth divergence 1
  concatW left_eye right_eye

/-- Python `int()` applied to a rational: truncation toward zero. -/
def pyInt (q : ℚ) : Int :=
  if 0 ≤ q then ⌊q⌋ else -⌊-q⌋

/-- The vertical padding of `process_image` / `get_output_size`:
`pad_h = int(height * pad); pad_h -= pad_h % 2` (rounded down to even). -/
def pad_h_of (h : Nat) (p : ℚ) : Int :=
  pyInt ((h : ℚ) * p) - pyInt ((h : ℚ) * p) % 2

/-- The per-side horizontal padding of `process_image` / `get_output_size`:
`pad_w = int(width * pad) // 2` (Python floor division). -/
def pad_w_of (w : Nat) (p : ℚ) : Int :=
  (pyInt ((w : ℚ) * p)).fdiv 2

/-- `get_output_size` of `iw3/cli.py`: per-eye output size after optional
rotation and padding. -/
def get_output_size (width height : Nat) (pad : Option ℚ) (rotate : Bool) :
    Int × Int :=
  let wh : Nat × Nat := if rotate then (height, width) else (width, height)
  match pad with
  | none => ((wh.1 : Int), (wh.2 : Int))
  | some p => ((wh.1 : Int) + pad_w_of wh.1 p * 2, (wh.2 : Int) + pad_h_of wh.2 p)

/-- Vertical padding as a natural number (the sizes are nonnegative whenever
the pad fraction is). -/
def padHN (h : Nat) (p : ℚ) : Nat := (pad_h_of h p).toNat

/-- Per-side horizontal padding as a natural number. -/
def padWN (w : Nat) (p : ℚ) : Nat := (pad_w_of w p).toNat

/-- Height of the padded SBS frame: top padding only, bottom unpadded. -/
abbrev sbs_pad_height (h : Nat) (p : ℚ) : Nat := padHN h p + h + 0

/-- Width of the padded SBS frame: two eye views, each padded by the per-side
horizontal padding on both sides. -/
abbrev sbs_pad_width (w : Nat) (p : ℚ) : Nat :=
  (padWN w p + w + padWN w p) + (padWN w p + w + padWN w p)

/-- `TF.pad(x, (pl, pt, pr, pb), padding_mode="constant")`: constant-value
(zero-fill) padding of an eye view, left/top/right/bottom. -/
def pad_eye {ch h w : Nat} (x : Image ch h w) (pl pt pr pb : Nat) :
    Image ch (pt + h + pb) (pl + w + pr) :=
  fun k i j =>
    if hin : pt ≤ (i : Nat) ∧ (i : Nat) < pt + h ∧ pl ≤ (j : Nat) ∧
        (j : Nat) < pl + w then
      x k ⟨(i : Nat) - pt, by omega⟩ ⟨(j : Nat) - pl, by omega⟩
    else 0

/-- The stereo pair assembly of `process_image` for `method="grid_sample"`
with `pad` set: each eye is padded by `(pad_w, pad_h, pad_w, 0)` with
constant values before concatenation. -/
def process_image_grid_sample_pad {ch h w : Nat} (im : Image ch h w)
    (raw_depth : DepthMap h w) (divergence : ℚ) (p : ℚ) :
    Image ch (sbs_pad_height h p) (sbs_pad_width w p) :=
  let depth := normalize_depth raw_depth
  let left_eye := apply_divergence_grid_sample im depth divergence (-1)
  let right_eye := apply_divergence_grid_sample im depth divergence 1
  concatW (pad_eye left_eye (padWN w p) (padHN h p) (padWN w p) 0)
    (pad_eye right_eye (padWN w p) (padHN h p) (padWN w p) 0)

/-- The argument tuple handed to `make_input_tensor` by the neural warp's
input callback (`make_input_tensor` itself lives in `iw3.utils`, outside the
included sources; the claim under study is about the arguments it is
given). -/
structure ModelInput where
  x : Nat → Nat → Nat → ℚ
  d : Nat → Nat → ℚ
  divergence : ℚ
  image_width : ℚ
  depth_min : ℚ
  depth_max : ℚ

/-- The pair returned by the preprocess callback: the replicate-padded image
and depth buffers, as total functions on indices. -/
abbrev PaddedPair : Type := (Nat → Nat → Nat → ℚ) × (Nat → Nat → ℚ)

/-- The `config_callback` closure of `apply_divergence_nn`:
`return 7, x.shape[1], x.shape[2]`, as a function of the argument's shape
triple. -/
def config_callback (x : Nat × Nat × Nat) : Nat × Nat × Nat :=
  (7, x.2.1, x.2.2)

/-- `F.pad(c.unsqueeze(0), pad, mode="replicate").squeeze(0)` with
`pad = (left, right, top, bottom)`: border-replicated extension of an image,
as a total function on indices. -/
def replicate_pad_image {ch h w : Nat} (c : Image ch h w)
    (pl pr pt pb : Nat) : Nat → Nat → Nat → ℚ :=
  fun k i j =>
    if hk : k < ch ∧ 0 < h ∧ 0 < w then
      c ⟨k, hk.1⟩
        ⟨clip_coordinates h ((i : Int) - (pt : Int)),
          clip_coordinates_lt hk.2.1 _⟩
        ⟨clip_coordinates w ((j : Int) - (pl : Int)),
          clip_coordinates_lt hk.2.2 _⟩
    else 0

/-- Replicate padding of a depth buffer. -/
def replicate_pad_depth {h w : Nat} (d : DepthMap h w)
    (pl pr pt pb : Nat) : Nat → Nat → ℚ :=
  fun i j =>
    if hk : 0 < h ∧ 0 < w then
      d ⟨clip_coordinates h ((i : Int) - (pt : Int)),
          clip_coordinates_lt hk.1 _⟩
        ⟨clip_coordinates w ((j : Int) - (pl : Int)),
          clip_coordinates_lt hk.2 _⟩
    else 0

/-- The `preprocess_callback` closure of `apply_divergence_nn`: pads the
captured image and depth together by the pad amounts the renderer asks for. -/
def preprocess_callback {h w : Nat} (c : Image 3 h w) (d : DepthMap h w)
    (pad : Nat × Nat × Nat × Nat) : PaddedPair :=
  (replicate_pad_image c pad.1 pad.2.1 pad.2.2.1 pad.2.2.2,
   replicate_pad_depth d pad.1 pad.2.1 pad.2.2.1 pad.2.2.2)

/-- The `input_callback` closure of `apply_divergence_nn`: slices the padded
pair at the tile bounds and builds the model input with the model's fixed
divergence, the divergence-rescaled effective image width, and the captured
depth minimum/maximum as metadata. -/
def input_callback (p : PaddedPair)
    (fixed_divergence divergence image_width dmin dmax : ℚ)
    (i1 i2 j1 j2 : Nat) : ModelInput :=
  { x := fun k i j => p.1 k (i1 + i) (j1 + j)
    d := fun i j => p.2 (i1 + i) (j1 + j)
    divergence := fixed_divergence
    image_width := image_width * (divergence / fixed_divergence)
    depth_min := dmin
    depth_max := dmax }

/-- The type of `SeamBlending.tiled_render` as consumed by
`apply_divergence_nn`: the renderer itself lives in
`nunif/utils/seam_blending.py`, outside the included sources, so it is an
abstract parameter receiving the input buffer and the three callbacks. -/
def TiledRenderer (h w : Nat) : Type :=
  Image 3 h w → (Nat × Nat × Nat → Nat × Nat × Nat) →
    (Nat × Nat × Nat × Nat → PaddedPair) →
    (PaddedPair → Nat → Nat → Nat → Nat → ModelInput) → Image 3 h w

/-- The neural warp wrapper `apply_divergence_nn` of `iw3/cli.py`: records
the image width and the depth extrema, mirrors image and depth along the
width axis when `shift > 0`, runs the tiled renderer with the three
callbacks, and mirrors the result back when `shift > 0`. -/
def apply_divergence_nn {h w : Nat} (tiled_render : TiledRenderer h w)
    (fixed_divergence : ℚ) (c : Image 3 h w) (depth : DepthMap h w)
    (divergence : ℚ) (shift : Int) : Image 3 h w :=
  let image_width : ℚ := (w : ℚ)
  let dmin := depth_min depth
  let dmax := depth_max depth
  let c2 := if 0 < shift then flipW c else c
  let d2 := if 0 < shift then flipD depth else depth
  let z := tiled_render c2 config_callback (preprocess_callback c2 d2)
    (fun p i1 i2 j1 j2 =>
      input_callback p fixed_divergence divergence image_width dmin dmax
        i1 i2 j1 j2)
  if 0 < shift then flipW z else z

/-- The stereo pair assembly of `process_image` for `method="row_flow"` and
`pad=None`: the raw depth is passed through unnormalized, the neural warp is
invoked once per eye with `shift = -1` (left) and `shift = 1` (right), and
left then right are concatenated along the width axis. -/
def process_image_row_flow {h w : Nat} (tiled_render : TiledRenderer h w)
    (fixed_divergence : ℚ) (im : Image 3 h w) (depth : DepthMap h w)
    (divergence : ℚ) : Image 3 h (w + w) :=
  let left_eye :=
    apply_divergence_nn tiled_render fixed_divergence im depth divergence (-1)
  let right_eye :=
    apply_divergence_nn tiled_render fixed_divergence im depth divergence 1
  concatW left_eye right_eye

/-- The two warp strategies selectable with `--method`. -/
inductive WarpMethod where
  | grid_sample
  | row_flow
deriving DecidableEq

/-- The error message raised by `main` for an unsupported divergence. -/
def row_flow_error_message : String :=
  "method row_flow only supports divergence 2.5 or 2.0"

/-- The divergence validation in `main`: `if args.method == "row_flow" and
(args.divergence != 2.5 and args.divergence != 2.0): raise ValueError(...)`. -/
def validate_divergence (method : WarpMethod) (divergence : ℚ) :
    Except String Unit :=
  if method = WarpMethod.row_flow ∧ divergence ≠ 5/2 ∧ divergence ≠ 2 then
    Except.error row_flow_error_message
  else Except.ok ()

/-- The part of `main` relevant to divergence validation: validation happens
first and rendering (abstracted as `render`) only runs if it passes. -/
def main_pipeline {α : Type} (render : ℚ → α) (method : WarpMethod)
    (divergence : ℚ) : Except String α :=
  match validate_divergence method divergence with
  | Except.error e => Except.error e
  | Except.ok _ => Except.ok (render divergence)

/-- PIL image modes distinguished by `_load_image`; `invalid` models the
non-mode object stored by the `im.mode = im.convert("L")` statement. -/
inductive Mode where
  | RGB
  | RGBA
  | L
  | LA
  | I
  | I16
  | P
  | CMYK
  | invalid
deriving DecidableEq, Fintype

/-- The `color` argument of `load_image`. -/
inductive Color where
  | rgb
  | gray
deriving DecidableEq, Fintype

/-- The aspects of a PIL image object that `_load_image`'s control flow
observes: its mode, whether a bytes/int `transparency` info entry is
present, whether an ICC profile is attached, and whether the CMS conversion
raises `PyCMSError`. -/
structure PILImage where
  mode : Mode
  transparency : Bool
  icc : Bool
  cms_error : Bool
deriving DecidableEq

/-- `im.convert(m)`: total in this model; produces an image of mode `m`. -/
def pil_convert (im : PILImage) (m : Mode) : PILImage :=
  { im with mode := m }

/-- The mode-relevant behaviour of `_load_image` in `nunif/utils/pil_io.py`:
the `I;16` special case, the transparency promotion under `keep_alpha`, the
ICC-profile conversions (with `PyCMSError` caught mid-way), the
normalization of exotic modes to RGB, and the final `color`/`keep_alpha`
conversion. -/
def _load_image (im : PILImage) (color : Option Color) (keep_alpha : Bool) :
    PILImage :=
  let im1 := if im.mode = Mode.I16 then { im with mode := Mode.invalid } else im
  let im2 :=
    if keep_alpha ∧ (im1.mode = Mode.L ∨ im1.mode = Mode.I ∨
        im1.mode = Mode.RGB ∨ im1.mode = Mode.P) then
      if im1.transparency then
        if im1.mode = Mode.RGB ∨ im1.mode = Mode.P then pil_convert im1 Mode.RGBA
        else if im1.mode = Mode.L then pil_convert im1 Mode.LA
        else im1
      else im1
    else im1
  let im3 :=
    if im2.icc then
      if im2.mode = Mode.CMYK then
        if im2.cms_error then im2 else pil_convert im2 Mode.RGB
      else if im2.mode = Mode.L then im2
      else if im2.mode = Mode.LA then
        if im2.cms_error then pil_convert im2 Mode.L else im2
      else im2
    else im2
  let im4 :=
    if im3.mode = Mode.RGB ∨ im3.mode = Mode.RGBA ∨ im3.mode = Mode.L ∨
        im3.mode = Mode.LA then im3
    else pil_convert im3 Mode.RGB
  let color2 :=
    match color with
    | none =>
      if im4.mode = Mode.RGB ∨ im4.mode = Mode.RGBA then Color.rgb
      else Color.gray
    | some c => c
  match color2 with
  | Color.rgb =>
    if keep_alpha then
      if im4.mode = Mode.L then pil_convert im4 Mode.RGB
      else if im4.mode = Mode.LA then pil_convert im4 Mode.RGBA
      else im4
    else
      if im4.mode ≠ Mode.RGB then pil_convert im4 Mode.RGB else im4
  | Color.gray =>
    if keep_alpha then
      if im4.mode = Mode.RGB then pil_convert im4 Mode.L
      else if im4.mode = Mode.RGBA then pil_convert im4 Mode.LA
      else im4
    else
      if im4.mode ≠ Mode.L then pil_convert im4 Mode.L else im4

/-- Outcome of `Image.open` on a file: a decodable image, or an
`UnidentifiedImageError` for an unidentifiable one. -/
inductive DecodeOutcome where
  | image (im : PILImage)
  | unidentified

/-- `load_image` of `nunif/utils/pil_io.py`: catches
`UnidentifiedImageError` and returns `(None, None)` instead of raising;
on success returns the loaded image and its metadata (metadata abstracted). -/
def load_image (o : DecodeOutcome) (color : Option Color)
    (keep_alpha : Bool) : Except String (Option PILImage × Option Unit) :=
  match o with
  | DecodeOutcome.unidentified => Except.ok (none, none)
  | DecodeOutcome.image im =>
      Except.ok (some (_load_image im color keep_alpha), some ())

/-- The batch loop of `process_images`: items whose loaded image is `None`
(or that are skipped by `--resume` with an existing output) are passed over;
the remaining items are processed in order. -/
def process_images_model {Im Out : Type} (resume : Bool)
    (existing : String → Bool) (proc : Im → Out) :
    List (Option Im × String) → List Out
  | [] => []
  | (none, _) :: rest => process_images_model resume existing proc rest
  | (some im, name) :: rest =>
      if resume ∧ existing name then
        process_images_model resume existing proc rest
      else proc im :: process_images_model resume existing proc rest

/- ------------------------------------------------------------------ -/
/- Theorems -/
/- ------------------------------------------------------------------ -/

theorem cubic_interp1d_at_zero (x0 x1 x2 x3 : ℚ) :
    cubic_interp1d x0 x1 x2 x3 0 = x1 := by
  unfold cubic_interp1d cubic_convolution1 cubic_convolution2 bicubicA
  ring

theorem unnormalize_linspace (n k : Nat) (hk : k < n) :
    unnormalize n (linspace n k) = (k : ℚ) := by
  unfold unnormalize linspace
  by_cases hn : n ≤ 1
  · have hk0 : k = 0 := by omega
    subst hk0
    simp
  · rw [if_neg hn]
    have h2 : 2 ≤ n := by omega
    have hne : ((n : ℚ) - 1) ≠ 0 := by
      have : (2 : ℚ) ≤ (n : ℚ) := by exact_mod_cast h2
      intro h
      nlinarith
    field_simp
    ring

theorem clip_coordinates_of_lt {n : Nat} (k : Nat) (hk : k < n) :
    clip_coordinates n (k : Int) = k := by
  unfold clip_coordinates
  omega

theorem get_value_bounded_at {ch h w : Nat} (c : Image ch h w) (k : Fin ch)
    (i : Fin h) (j : Fin w) :
    get_value_bounded c k (i : Int) (j : Int) = c k i j := by
  unfold get_value_bounded
  rw [dif_pos ⟨i.pos, j.pos⟩]
  have hi : clip_coordinates h (i : Int) = (i : Nat) :=
    clip_coordinates_of_lt _ i.isLt
  have hj : clip_coordinates w (j : Int) = (j : Nat) :=
    clip_coordinates_of_lt _ j.isLt
  congr 1 <;> simp [hi, hj]

theorem bicubic_sample_at_grid {ch h w : Nat} (c : Image ch h w) (k : Fin ch)
    (i : Fin h) (j : Fin w) :
    bicubic_sample c k ((j : Nat) : ℚ) ((i : Nat) : ℚ) = c k i j := by
  unfold bicubic_sample
  simp only [Int.floor_natCast, Int.cast_natCast, sub_self,
    cubic_interp1d_at_zero]
  exact get_value_bounded_at c k i j

/-- C1: the closed-form warp computes, at every output pixel with normalized
coordinate `(x, y)`, a horizontal index shift `(1 - depth²) * (shift *
divergence * 0.01)` with scale constant `0.01`, samples the source at
`(x - shift, y)` by bicubic interpolation with border-clamped padding, and
clamps the result to `[0, 1]`: the tensor-level pipeline
`apply_divergence_grid_sample` coincides with the per-pixel specification
formula `closed_form_warp_spec`. -/
theorem apply_divergence_grid_sample_matches_spec {ch h w : Nat}
    (c : Image ch h w) (depth : DepthMap h w) (divergence shift : ℚ) :
    apply_divergence_grid_sample c depth divergence shift =
      closed_form_warp_spec c depth divergence shift := by
  funext k i j
  rfl

/-- C7: applying the closed-form warp with divergence `0` to an image whose
values lie in `[0, 1]` returns the original image unchanged (the index shift
vanishes for every depth value, the bicubic resampling at exact grid points
is the identity, and the final clamp is the identity on `[0, 1]`). In this
exact rational model the identity holds exactly, hence in particular within
interpolation tolerance. -/
theorem apply_divergence_grid_sample_zero_divergence {ch h w : Nat}
    (c : Image ch h w) (depth : DepthMap h w) (shift : ℚ)
    (hb : ∀ (k : Fin ch) (i : Fin h) (j : Fin w),
      0 ≤ c k i j ∧ c k i j ≤ 1) :
    apply_divergence_grid_sample c depth 0 shift = c := by
  funext k i j
  show min 1 (max 0 (bicubic_sample c k
      (unnormalize w (linspace w j - (1 - depth i j ^ 2) * (shift * 0 * (1/100))))
      (unnormalize h (linspace h i)))) = c k i j
  have hshift : (1 - depth i j ^ 2) * (shift * 0 * (1/100)) = 0 := by ring
  rw [hshift, sub_zero, unnormalize_linspace w j j.isLt,
    unnormalize_linspace h i i.isLt, bicubic_sample_at_grid,
    max_eq_right (hb k i j).1, min_eq_right (hb k i j).2]

/-- Witness for C7 at a concrete input: a 1×1×1 image with value 1/2 and a
constant depth map is returned unchanged by the warp with divergence 0. -/
theorem apply_divergence_grid_sample_zero_divergence_witness :
    apply_divergence_grid_sample (fun _ _ _ => (1:ℚ)/2 : Image 1 1 1)
      (fun _ _ => (3:ℚ)/10) 0 1 = (fun _ _ _ => (1:ℚ)/2) :=
  apply_divergence_grid_sample_zero_divergence _ _ 1
    (by intro k i j; constructor <;> norm_num)

theorem concatW_apply_lt {ch h w1 w2 : Nat} (L : Image ch h w1)
    (R : Image ch h w2) (k : Fin ch) (i : Fin h) (j : Fin (w1 + w2))
    (hj : (j : Nat) < w1) :
    concatW L R k i j = L k i ⟨(j : Nat), hj⟩ := by
  unfold concatW
  rw [dif_pos hj]

theorem concatW_apply_ge {ch h w1 w2 : Nat} (L : Image ch h w1)
    (R : Image ch h w2) (k : Fin ch) (i : Fin h) (j : Fin (w1 + w2))
    (hj : ¬ (j : Nat) < w1) :
    concatW L R k i j = R k i ⟨(j : Nat) - w1, by omega⟩ := by
  unfold concatW
  rw [dif_neg hj]

theorem concatW_castAdd {ch h w1 w2 : Nat} (L : Image ch h w1)
    (R : Image ch h w2) (k : Fin ch) (i : Fin h) (j : Fin w1) :
    concatW L R k i (Fin.castAdd w2 j) = L k i j := by
  rw [concatW_apply_lt L R k i _ (show ((Fin.castAdd w2 j : Fin (w1 + w2)) :
    Nat) < w1 from j.isLt)]
  congr 1

theorem concatW_natAdd {ch h w1 w2 : Nat} (L : Image ch h w1)
    (R : Image ch h w2) (k : Fin ch) (i : Fin h) (j : Fin w2) :
    concatW L R k i (Fin.natAdd w1 j) = R k i j := by
  rw [concatW_apply_ge L R k i _ (show ¬ ((Fin.natAdd w1 j : Fin (w1 + w2)) :
    Nat) < w1 by simp)]
  congr 1
  apply Fin.ext
  show w1 + (j : Nat) - w1 = (j : Nat)
  omega

/-- C4: the stereo pair assembler invokes the selected warp strategy twice
with identical depth and divergence — `shift = -1` for the left eye and
`shift = 1` for the right eye — and concatenates left then right along the
width axis: first conjunct for the `grid_sample` strategy, third conjunct
for the `row_flow` (neural) strategy with any tiled renderer; in particular
(second conjunct), for a 256×256 input the output is a 512-wide SBS frame
whose left half is the closed-form warp output for `shift = -1` and whose
right half the one for `shift = 1`. -/
theorem process_image_sbs_halves :
    (∀ (ch h w : Nat) (im : Image ch h w) (rd : DepthMap h w) (dv : ℚ)
        (k : Fin ch) (i : Fin h) (j : Fin w),
      process_image_grid_sample im rd dv k i (Fin.castAdd w j) =
          apply_divergence_grid_sample im (normalize_depth rd) dv (-1) k i j ∧
      process_image_grid_sample im rd dv k i (Fin.natAdd w j) =
          apply_divergence_grid_sample im (normalize_depth rd) dv 1 k i j) ∧
    (∀ (im : Image 3 256 256) (rd : DepthMap 256 256) (dv : ℚ)
        (k : Fin 3) (i : Fin 256) (j : Fin 256),
      process_image_grid_sample im rd dv k i ((⟨(j : Nat), by omega⟩ : Fin 512)) =
          apply_divergence_grid_sample im (normalize_depth rd) dv (-1) k i j ∧
      process_image_grid_sample im rd dv k i
            ((⟨256 + (j : Nat), by omega⟩ : Fin 512)) =
          apply_divergence_grid_sample im (normalize_depth rd) dv 1 k i j) ∧
    (∀ (h w : Nat) (tiled_render : TiledRenderer h w) (fixed_divergence : ℚ)
        (im : Image 3 h w) (depth : DepthMap h w) (dv : ℚ)
        (k : Fin 3) (i : Fin h) (j : Fin w),
      process_image_row_flow tiled_render fixed_divergence im depth dv k i
            (Fin.castAdd w j) =
          apply_divergence_nn tiled_render fixed_divergence im depth dv (-1)
            k i j ∧
      process_image_row_flow tiled_render fixed_divergence im depth dv k i
            (Fin.natAdd w j) =
          apply_divergence_nn tiled_render fixed_divergence im depth dv 1
            k i j) := by
  have hgen : ∀ (ch h w : Nat) (im : Image ch h w) (rd : DepthMap h w) (dv : ℚ)
      (k : Fin ch) (i : Fin h) (j : Fin w),
      process_image_grid_sample im rd dv k i (Fin.castAdd w j) =
          apply_divergence_grid_sample im (normalize_depth rd) dv (-1) k i j ∧
      process_image_grid_sample im rd dv k i (Fin.natAdd w j) =
          apply_divergence_grid_sample im (normalize_depth rd) dv 1 k i j := by
    intro ch h w im rd dv k i j
    exact ⟨concatW_castAdd _ _ k i j, concatW_natAdd _ _ k i j⟩
  refine ⟨hgen, fun im rd dv k i j =>
    ⟨(hgen 3 256 256 im rd dv k i j).1, (hgen 3 256 256 im rd dv k i j).2⟩, ?_⟩
  intro h w tiled_render fixed_divergence im depth dv k i j
  exact ⟨concatW_castAdd _ _ k i j, concatW_natAdd _ _ k i j⟩

theorem pyInt_nonneg {q : ℚ} (hq : 0 ≤ q) : 0 ≤ pyInt q := by
  unfold pyInt
  rw [if_pos hq]
  exact Int.floor_nonneg.mpr hq

theorem pad_h_of_nonneg (h : Nat) {p : ℚ} (hp : 0 ≤ p) : 0 ≤ pad_h_of h p := by
  unfold pad_h_of
  have := pyInt_nonneg (mul_nonneg (Nat.cast_nonneg h) hp)
  omega

theorem pad_w_of_nonneg (w : Nat) {p : ℚ} (hp : 0 ≤ p) : 0 ≤ pad_w_of w p := by
  unfold pad_w_of
  exact Int.fdiv_nonneg (pyInt_nonneg (mul_nonneg (Nat.cast_nonneg w) hp))
    (by norm_num)

theorem pad_eye_top {ch h w : Nat} (x : Image ch h w) (pl pt pr pb : Nat)
    (k : Fin ch) (ii : Fin (pt + h + pb)) (jj : Fin (pl + w + pr))
    (hii : (ii : Nat) < pt) :
    pad_eye x pl pt pr pb k ii jj = 0 := by
  unfold pad_eye
  rw [dif_neg]
  omega

theorem pad_eye_interior {ch h w : Nat} (x : Image ch h w) (pl pt pr pb : Nat)
    (k : Fin ch) (ii : Fin (pt + h + pb)) (jj : Fin (pl + w + pr))
    (i : Fin h) (j : Fin w) (hii : (ii : Nat) = pt + (i : Nat))
    (hjj : (jj : Nat) = pl + (j : Nat)) :
    pad_eye x pl pt pr pb k ii jj = x k i j := by
  unfold pad_eye
  rw [dif_pos ⟨by omega, by omega, by omega, by omega⟩]
  have hi2 : i = (⟨(ii : Nat) - pt, by omega⟩ : Fin h) := by
    apply Fin.ext
    show (i : Nat) = (ii : Nat) - pt
    omega
  have hj2 : j = (⟨(jj : Nat) - pl, by omega⟩ : Fin w) := by
    apply Fin.ext
    show (j : Nat) = (jj : Nat) - pl
    omega
  conv_rhs => rw [hi2, hj2]

/-- C2 counterexample: for input extent 100×100 and pad fraction 1/10 the
output SBS width is `2 × (W + 2 × pad_w) = 220`, not `2 × (W + pad_w) = 210`
as the claim's size formula states. -/
theorem sbs_pad_width_counterexample :
    sbs_pad_width 100 (1/10) ≠ 2 * (100 + padWN 100 (1/10)) := by
  have h10 : ((100 : Nat) : ℚ) * (1/10) = 10 := by norm_num
  have hfloor : pyInt (((100 : Nat) : ℚ) * (1/10)) = 10 := by
    unfold pyInt
    rw [h10, if_pos (by norm_num)]
    norm_num
  have hw : padWN 100 (1/10) = 5 := by
    unfold padWN pad_w_of
    rw [hfloor]
    decide
  rw [sbs_pad_width, hw]
  norm_num

/-- C2 (amended): for input extent (H, W) and pad fraction p ≥ 0 the padded
SBS frame has extent `(H + pad_h, 2 × (W + 2 × pad_w))` where
`pad_h = int(H*p)` rounded down to even and `pad_w = int(W*p) // 2` is
applied on each horizontal side of each eye; this agrees with
`get_output_size`; vertical padding is applied only on the top edge (the
bottom stays unpadded) and the padding is constant-value 0, with each eye's
original content shifted by `(pad_h, pad_w)`. -/
theorem process_image_pad_size_law :
    ∀ (h w : Nat) (p : ℚ), 0 ≤ p →
      (get_output_size w h (some p) false =
          (((w + 2 * padWN w p : Nat) : Int), ((h + padHN h p : Nat) : Int)) ∧
        sbs_pad_width w p = 2 * (w + 2 * padWN w p) ∧
        sbs_pad_height h p = h + padHN h p) ∧
      ∀ (ch : Nat) (im : Image ch h w) (rd : DepthMap h w) (dv : ℚ)
          (k : Fin ch),
        (∀ (ip : Fin (sbs_pad_height h p)) (jp : Fin (sbs_pad_width w p)),
            (ip : Nat) < padHN h p →
            process_image_grid_sample_pad im rd dv p k ip jp = 0) ∧
        ∀ (i : Fin h) (j : Fin w) (ip : Fin (sbs_pad_height h p))
            (jp : Fin (sbs_pad_width w p)),
          (ip : Nat) = padHN h p + (i : Nat) →
          (((jp : Nat) = padWN w p + (j : Nat) →
            process_image_grid_sample_pad im rd dv p k ip jp =
              apply_divergence_grid_sample im (normalize_depth rd) dv (-1) k i j) ∧
          ((jp : Nat) = (padWN w p + w + padWN w p) + (padWN w p + (j : Nat)) →
            process_image_grid_sample_pad im rd dv p k ip jp =
              apply_divergence_grid_sample im (normalize_depth rd) dv 1 k i j)) := by
  intro h w p hp
  have hw0 : 0 ≤ pad_w_of w p := pad_w_of_nonneg w hp
  have hh0 : 0 ≤ pad_h_of h p := pad_h_of_nonneg h hp
  constructor
  · refine ⟨?_, by unfold sbs_pad_width; omega, by unfold sbs_pad_height; omega⟩
    unfold get_output_size padWN padHN
    simp only [Bool.false_eq_true, if_false]
    rw [Prod.mk.injEq]
    constructor <;> push_cast <;> omega
  · intro ch im rd dv k
    constructor
    · intro ip jp hip
      unfold process_image_grid_sample_pad
      by_cases hj : (jp : Nat) < padWN w p + w + padWN w p
      · rw [concatW_apply_lt _ _ _ _ _ hj]
        exact pad_eye_top _ _ _ _ _ _ _ _ hip
      · rw [concatW_apply_ge _ _ _ _ _ hj]
        exact pad_eye_top _ _ _ _ _ _ _ _ hip
    · intro i j ip jp hip
      constructor
      · intro hjp
        unfold process_image_grid_sample_pad
        rw [concatW_apply_lt _ _ _ _ _
          (show (jp : Nat) < padWN w p + w + padWN w p by omega)]
        exact pad_eye_interior _ _ _ _ _ _ _ _ i j hip (by show (jp : Nat) = _; omega)
      · intro hjp
        unfold process_image_grid_sample_pad
        rw [concatW_apply_ge _ _ _ _ _
          (show ¬ (jp : Nat) < padWN w p + w + padWN w p by omega)]
        exact pad_eye_interior _ _ _ _ _ _ _ _ i j hip
          (by show (jp : Nat) - (padWN w p + w + padWN w p) = _; omega)

/-- Witness for C2 (amended) at extent 1×1 and pad fraction 2 (so
`pad_h = 2`, `pad_w = 1`): the size law and the padding layout at concrete
pixels. -/
theorem process_image_pad_size_law_witness :
    get_output_size 1 1 (some 2) false = (3, 3) ∧
    process_image_grid_sample_pad (fun _ _ _ => (1:ℚ)/2 : Image 1 1 1)
        (fun _ _ => (1:ℚ)/4) 0 2 0
        ⟨0, by show 0 < padHN 1 2 + 1 + 0; omega⟩
        ⟨0, by show 0 < (padWN 1 2 + 1 + padWN 1 2) +
          (padWN 1 2 + 1 + padWN 1 2); omega⟩ = 0 ∧
    process_image_grid_sample_pad (fun _ _ _ => (1:ℚ)/2 : Image 1 1 1)
        (fun _ _ => (1:ℚ)/4) 0 2 0
        ⟨padHN 1 2 + 0, by show padHN 1 2 + 0 < padHN 1 2 + 1 + 0; omega⟩
        ⟨padWN 1 2 + 0, by show padWN 1 2 + 0 < (padWN 1 2 + 1 + padWN 1 2) +
          (padWN 1 2 + 1 + padWN 1 2); omega⟩ =
      apply_divergence_grid_sample (fun _ _ _ => (1:ℚ)/2 : Image 1 1 1)
        (normalize_depth (fun _ _ => (1:ℚ)/4)) 0 (-1) 0 0 0 := by
  have H := process_image_pad_size_law 1 1 2 (by norm_num)
  have hcast : (((1:Nat) : ℚ) * 2) = 2 := by norm_num
  have hwv : padWN 1 2 = 1 := by
    unfold padWN pad_w_of pyInt
    rw [hcast, if_pos (by norm_num : (0:ℚ) ≤ 2),
      show ⌊(2:ℚ)⌋ = 2 from by norm_num]
    decide
  have hhv : padHN 1 2 = 2 := by
    unfold padHN pad_h_of pyInt
    rw [hcast, if_pos (by norm_num : (0:ℚ) ≤ 2),
      show ⌊(2:ℚ)⌋ = 2 from by norm_num]
    decide
  refine ⟨?_, ?_, ?_⟩
  · have h1 := H.1.1
    rw [hwv, hhv] at h1
    norm_num at h1
    exact h1
  · refine (H.2 1 (fun _ _ _ => (1:ℚ)/2) (fun _ _ => (1:ℚ)/4) 0 0).1 _ _ ?_
    show 0 < padHN 1 2
    rw [hhv]
    norm_num
  · exact (((H.2 1 (fun _ _ _ => (1:ℚ)/2) (fun _ _ => (1:ℚ)/4) 0 0).2
      0 0 _ _ rfl).1) rfl

theorem depth_min_le {h w : Nat} (d : DepthMap h w) (i : Fin h) (j : Fin w) :
    depth_min d ≤ d i j := by
  unfold depth_min
  rw [dif_pos ⟨i.pos, j.pos⟩]
  exact Finset.inf'_le _ (Finset.mem_univ (i, j))

theorem le_depth_max {h w : Nat} (d : DepthMap h w) (i : Fin h) (j : Fin w) :
    d i j ≤ depth_max d := by
  unfold depth_max
  rw [dif_pos ⟨i.pos, j.pos⟩]
  exact Finset.le_sup' (fun p : Fin h × Fin w => d p.1 p.2)
    (Finset.mem_univ (i, j))

theorem depth_min_flipD {h w : Nat} (d : DepthMap h w) :
    depth_min (flipD d) = depth_min d := by
  unfold depth_min flipD
  by_cases hne : 0 < h ∧ 0 < w
  · rw [dif_pos hne, dif_pos hne]
    haveI : Nonempty (Fin h × Fin w) := ⟨(⟨0, hne.1⟩, ⟨0, hne.2⟩)⟩
    apply le_antisymm
    · apply Finset.le_inf'
      intro b _
      have hle := Finset.inf'_le (fun p : Fin h × Fin w => d p.1 p.2.rev)
        (Finset.mem_univ (b.1, b.2.rev))
      simpa [Fin.rev_rev] using hle
    · apply Finset.le_inf'
      intro b _
      exact Finset.inf'_le (fun p : Fin h × Fin w => d p.1 p.2)
        (Finset.mem_univ (b.1, b.2.rev))
  · rw [dif_neg hne, dif_neg hne]

theorem depth_max_flipD {h w : Nat} (d : DepthMap h w) :
    depth_max (flipD d) = depth_max d := by
  unfold depth_max flipD
  by_cases hne : 0 < h ∧ 0 < w
  · rw [dif_pos hne, dif_pos hne]
    haveI : Nonempty (Fin h × Fin w) := ⟨(⟨0, hne.1⟩, ⟨0, hne.2⟩)⟩
    apply le_antisymm
    · apply Finset.sup'_le
      intro b _
      exact Finset.le_sup' (fun p : Fin h × Fin w => d p.1 p.2)
        (Finset.mem_univ (b.1, b.2.rev))
    · apply Finset.sup'_le
      intro b _
      have hle := Finset.le_sup' (fun p : Fin h × Fin w => d p.1 p.2.rev)
        (Finset.mem_univ (b.1, b.2.rev))
      simpa [Fin.rev_rev] using hle
  · rw [dif_neg hne, dif_neg hne]

/-- C3: the neural warp with `shift_direction = +1` equals the horizontal
mirror of the neural warp applied to the horizontally mirrored image and
depth with `shift_direction = -1`, for every tiled renderer, model
divergence, image, depth and requested divergence — direction is implemented
purely by mirroring around the renderer call. -/
theorem apply_divergence_nn_mirror {h w : Nat} (tiled_render : TiledRenderer h w)
    (fixed_divergence : ℚ) (c : Image 3 h w) (depth : DepthMap h w)
    (divergence : ℚ) :
    apply_divergence_nn tiled_render fixed_divergence c depth divergence 1 =
      flipW (apply_divergence_nn tiled_render fixed_divergence
        (flipW c) (flipD depth) divergence (-1)) := by
  unfold apply_divergence_nn
  norm_num [depth_min_flipD, depth_max_flipD]

/-- C5: the neural warp's input callback sets the model input's divergence
to the model's fixed trained divergence, its effective image width to
`actual_width × (requested_divergence / fixed_divergence)`, and passes the
depth buffer's global minimum and maximum through as metadata (they bound
every depth sample and are not baked into any normalization of the sliced
buffers). -/
theorem input_callback_metadata {h w : Nat} (p : PaddedPair)
    (fixed_divergence divergence : ℚ) (depth : DepthMap h w)
    (i1 i2 j1 j2 : Nat) :
    (input_callback p fixed_divergence divergence (w : ℚ)
        (depth_min depth) (depth_max depth) i1 i2 j1 j2).divergence =
      fixed_divergence ∧
    (input_callback p fixed_divergence divergence (w : ℚ)
        (depth_min depth) (depth_max depth) i1 i2 j1 j2).image_width =
      (w : ℚ) * (divergence / fixed_divergence) ∧
    (input_callback p fixed_divergence divergence (w : ℚ)
        (depth_min depth) (depth_max depth) i1 i2 j1 j2).depth_min =
      depth_min depth ∧
    (input_callback p fixed_divergence divergence (w : ℚ)
        (depth_min depth) (depth_max depth) i1 i2 j1 j2).depth_max =
      depth_max depth ∧
    (∀ (i : Fin h) (j : Fin w),
      (input_callback p fixed_divergence divergence (w : ℚ)
          (depth_min depth) (depth_max depth) i1 i2 j1 j2).depth_min ≤
        depth i j ∧
      depth i j ≤ (input_callback p fixed_divergence divergence (w : ℚ)
          (depth_min depth) (depth_max depth) i1 i2 j1 j2).depth_max) ∧
    (∀ (k i j : Nat),
      (input_callback p fixed_divergence divergence (w : ℚ)
          (depth_min depth) (depth_max depth) i1 i2 j1 j2).x k i j =
        p.1 k (i1 + i) (j1 + j)) :=
  ⟨rfl, rfl, rfl, rfl,
    fun i j => ⟨depth_min_le depth i j, le_depth_max depth i j⟩,
    fun _ _ _ => rfl⟩

/-- C8 counterexample: on a 3-channel 256×256 input the configuration
callback returns `(7, 256, 256)` — the padding requirement 7 together with
the input's height and width; no component of the returned triple is an
output channel count of 3. -/
theorem config_callback_counterexample :
    config_callback (3, 256, 256) = (7, 256, 256) ∧
    (config_callback (3, 256, 256)).1 ≠ 3 ∧
    (config_callback (3, 256, 256)).2.1 ≠ 3 ∧
    (config_callback (3, 256, 256)).2.2 ≠ 3 := by
  decide

/-- C8 (amended): the neural warp's configuration callback declares a
padding requirement of 7 for every input, and its remaining two components
echo the input's `shape[1]` and `shape[2]` (its height and width) rather
than declaring a channel count. -/
theorem config_callback_padding_seven :
    ∀ x : Nat × Nat × Nat,
      config_callback x = (7, x.2.1, x.2.2) ∧ (config_callback x).1 = 7 :=
  fun _ => ⟨rfl, rfl⟩

/-- C6: with the neural warp (`row_flow`) selected, a divergence outside
`{2.0, 2.5}` makes the pipeline fail with the configuration error message
before any rendering runs (the result is the error, independently of the
renderer), while supported divergence values and the `grid_sample` method
proceed to rendering without this error. -/
theorem main_pipeline_divergence_validation :
    ∀ (α : Type) (render : ℚ → α) (d : ℚ),
      (d ≠ 2 → d ≠ 5/2 →
        main_pipeline render WarpMethod.row_flow d =
          Except.error row_flow_error_message) ∧
      main_pipeline render WarpMethod.row_flow 2 = Except.ok (render 2) ∧
      main_pipeline render WarpMethod.row_flow (5/2) =
        Except.ok (render (5/2)) ∧
      main_pipeline render WarpMethod.grid_sample d = Except.ok (render d) := by
  intro α render d
  refine ⟨?_, ?_, ?_, ?_⟩
  · intro h2 h52
    unfold main_pipeline validate_divergence
    rw [if_pos ⟨rfl, h52, h2⟩]
  · unfold main_pipeline validate_divergence
    norm_num
  · unfold main_pipeline validate_divergence
    norm_num
  · unfold main_pipeline validate_divergence
    rw [if_neg (by simp)]

/-- Witness for C6 at divergence 3: the pipeline returns the configuration
error without invoking the renderer, and divergence 2 proceeds. -/
theorem main_pipeline_divergence_validation_witness :
    main_pipeline (fun q => q) WarpMethod.row_flow 3 =
      Except.error row_flow_error_message ∧
    main_pipeline (fun q => q) WarpMethod.row_flow 2 = Except.ok 2 :=
  ⟨(main_pipeline_divergence_validation ℚ (fun q => q) 3).1 (by norm_num)
      (by norm_num),
    (main_pipeline_divergence_validation ℚ (fun q => q) 3).2.1⟩

/-- C9: an unidentifiable image makes `load_image` return `(None, None)`
instead of raising (`load_image` never raises in this model), and the batch
loop of `process_images` skips an item whose loaded image is `None`,
continuing with the remaining items exactly as if the item were absent. -/
theorem decode_failure_skipped :
    (∀ (color : Option Color) (keep_alpha : Bool),
      load_image DecodeOutcome.unidentified color keep_alpha =
        Except.ok (none, none)) ∧
    (∀ (o : DecodeOutcome) (color : Option Color) (keep_alpha : Bool),
      ∃ r, load_image o color keep_alpha = Except.ok r) ∧
    (∀ (Im Out : Type) (resume : Bool) (existing : String → Bool)
        (proc : Im → Out) (pre post : List (Option Im × String))
        (name : String),
      process_images_model resume existing proc (pre ++ (none, name) :: post) =
        process_images_model resume existing proc (pre ++ post)) := by
  refine ⟨fun _ _ => rfl, ?_, ?_⟩
  · intro o color keep_alpha
    cases o with
    | unidentified => exact ⟨(none, none), rfl⟩
    | image im => exact ⟨_, rfl⟩
  · intro Im Out resume existing proc pre post name
    induction pre with
    | nil => simp [process_images_model]
    | cons head tail ih =>
      obtain ⟨im?, nm⟩ := head
      cases im? with
      | none => simpa [process_images_model] using ih
      | some im =>
        by_cases hr : resume ∧ existing nm = true
        · simp only [List.cons_append, process_images_model, if_pos hr]
          exact ih
        · simp only [List.cons_append, process_images_model, if_neg hr]
          exact congrArg (fun l => proc im :: l) ih

/-- C10: for every input image state and every combination of the `color`
(`rgb`, `gray`, or unset) and `keep_alpha` options, the image `_load_image`
returns has mode among RGB, RGBA, L, LA; with `color="rgb"` and
`keep_alpha=False` the returned mode is exactly RGB. -/
theorem load_image_mode_invariant :
    ∀ (m : Mode) (t icc cerr : Bool) (color : Option Color)
      (keep_alpha : Bool),
      ((_load_image ⟨m, t, icc, cerr⟩ color keep_alpha).mode = Mode.RGB ∨
        (_load_image ⟨m, t, icc, cerr⟩ color keep_alpha).mode = Mode.RGBA ∨
        (_load_image ⟨m, t, icc, cerr⟩ color keep_alpha).mode = Mode.L ∨
        (_load_image ⟨m, t, icc, cerr⟩ color keep_alpha).mode = Mode.LA) ∧
      (_load_image ⟨m, t, icc, cerr⟩ (some Color.rgb) false).mode =
        Mode.RGB := by
  decide
